import Mathlib

/-!
Shallow embedding of the line-oriented protocol-client core shared by the
MPD and NUT clients of `dwmstatus.c` / `wmstatus.c` (pjanx/desktop-tools),
together with theorems settling the frozen claims about it.

Strings from the C side are modelled as `List Char` (C `char` bytes; the
sources only ever treat them as bytes).  Stateful C structures become Lean
records; callback invocations become explicit event lists.
-/

namespace DesktopTools

/-- ASCII whitespace predicate.  Models `isspace_ascii` from the liberty
support library (an external dependency of the repository): the six
standard ASCII whitespace bytes, `" \t\n\v\f\r"`. -/
def isspace_ascii (c : Char) : Bool :=
  c = ' ' || c = '\t' || c = '\n' || c = '\x0b' || c = '\x0c' || c = '\r'

/-- Every ASCII whitespace byte is at most 0x20. -/
theorem isspace_ascii_le (c : Char) (h : isspace_ascii c = true) : c.toNat ≤ 0x20 := by
  simp only [isspace_ascii, Bool.or_eq_true, decide_eq_true_eq] at h
  rcases h with ((((h | h) | h) | h) | h) | h <;> subst h <;> decide

-- --- NUT line parser (`nut_parser` in dwmstatus.c / wmstatus.c) --------------

/-- States of the NUT line tokenizer automaton (`enum nut_parser_state`). -/
inductive NutParserState
  | startLine      -- NUT_STATE_START_LINE
  | between        -- NUT_STATE_BETWEEN
  | unquoted       -- NUT_STATE_UNQUOTED
  | unquotedEscape -- NUT_STATE_UNQUOTED_ESCAPE
  | quoted         -- NUT_STATE_QUOTED
  | quotedEscape   -- NUT_STATE_QUOTED_ESCAPE
  | quotedEnd      -- NUT_STATE_QUOTED_END
  deriving DecidableEq, Repr

/-- The NUT tokenizer (`struct nut_parser`): automaton state, the field
being accumulated, and the fields of the line being accumulated. -/
structure NutParser where
  state : NutParserState
  current_field : List Char
  fields : List (List Char)
  deriving DecidableEq, Repr

/-- Result of pushing one byte (`nut_parser_push` returns 1 / -1 / 0). -/
inductive PushResult
  | completeLine   -- 1: a complete line has been read
  | error          -- -1: hard parse error
  | more           -- 0: keep feeding
  deriving DecidableEq, Repr

/-- `nut_parser_init`: initial tokenizer state. -/
def nutParserInit : NutParser :=
  { state := .startLine, current_field := [], fields := [] }

/-- `nut_parser_end_field`: commit the current field; on a line feed the
line is complete. -/
def nut_parser_end_field (p : NutParser) (c : Char) : NutParser × PushResult :=
  let p := { p with fields := p.fields ++ [p.current_field], current_field := [] }
  if c = '\n' then
    ({ p with state := .startLine }, .completeLine)
  else
    ({ p with state := .between }, .more)

/-- The `NUT_STATE_BETWEEN` case of `nut_parser_push`; `NUT_STATE_START_LINE`
falls through to it after resetting the accumulators. -/
def nut_parser_push_between (p : NutParser) (c : Char) : NutParser × PushResult :=
  let p := { p with state := NutParserState.between }
  if c = '\\' then
    ({ p with state := .unquotedEscape }, .more)
  else if c = '"' then
    ({ p with state := .quoted }, .more)
  else if c = '\n' && !p.fields.isEmpty then
    ({ p with state := .startLine }, .completeLine)
  else if !isspace_ascii c then
    ({ p with current_field := p.current_field ++ [c], state := .unquoted }, .more)
  else
    (p, .more)

/-- `nut_parser_push`: feed one byte to the tokenizer automaton. -/
def nut_parser_push (p : NutParser) (c : Char) : NutParser × PushResult :=
  match p.state with
  | .startLine =>
      nut_parser_push_between { p with fields := [], current_field := [] } c
  | .between => nut_parser_push_between p c
  | .unquoted =>
      if c = '\\' then
        ({ p with state := .unquotedEscape }, .more)
      else if c = '"' then
        (p, .error)
      else if !isspace_ascii c then
        ({ p with current_field := p.current_field ++ [c] }, .more)
      else
        nut_parser_end_field p c
  | .unquotedEscape =>
      ({ p with current_field := p.current_field ++ [c], state := .unquoted }, .more)
  | .quoted =>
      if c = '\\' then
        ({ p with state := .quotedEscape }, .more)
      else if c = '"' then
        ({ p with state := .quotedEnd }, .more)
      else
        ({ p with current_field := p.current_field ++ [c] }, .more)
  | .quotedEscape =>
      ({ p with current_field := p.current_field ++ [c], state := .quoted }, .more)
  | .quotedEnd =>
      if !isspace_ascii c then
        (p, .error)
      else
        nut_parser_end_field p c

/-- Run the tokenizer over a byte sequence, collecting the field lists of
all completed lines; `none` on a hard parse error.  (This is the loop of
`nut_client_process_input`, with the per-line action abstracted to
collecting `parser.fields`.) -/
def nut_feed (p : NutParser) : List Char → Option (NutParser × List (List (List Char)))
  | [] => some (p, [])
  | c :: rest =>
    match nut_parser_push p c with
    | (_, .error) => none
    | (p', .completeLine) =>
        (nut_feed p' rest).map (fun q => (q.1, p'.fields :: q.2))
    | (p', .more) => nut_feed p' rest

-- --- NUT command serializer --------------------------------------------------

/-- The per-byte quoting condition of `nut_client_must_quote`:
a byte at most 0x20, the quote character, or the backslash. -/
def nut_must_quote_char (c : Char) : Bool :=
  c.toNat ≤ 0x20 || c = '"' || c = '\\'

/-- `nut_client_must_quote`: an argument must be quoted when it is empty or
contains a byte at most 0x20, a quote character, or a backslash. -/
def nut_client_must_quote (s : List Char) : Bool :=
  match s with
  | [] => true
  | _ => s.any nut_must_quote_char

/-- Body of `nut_client_quote`: backslash-escape embedded quotes and
backslashes. -/
def nut_quote_body : List Char → List Char
  | [] => []
  | c :: s => (if c = '"' || c = '\\' then ['\\', c] else [c]) ++ nut_quote_body s

/-- `nut_client_quote`: wrap in quote characters, escaping the body. -/
def nut_client_quote (s : List Char) : List Char :=
  '"' :: (nut_quote_body s ++ ['"'])

/-- One argument as `nut_client_serialize` emits it: quoted when required,
verbatim otherwise. -/
def nut_serialize_field (s : List Char) : List Char :=
  if nut_client_must_quote s then nut_client_quote s else s

/-- `nut_client_serialize`: append the arguments to `line`, separated by
single spaces (a space is prepended before an argument whenever `line` is
nonempty, mirroring the `if (line->len)` test). -/
def nut_client_serialize : List (List Char) → List Char → List Char
  | [], line => line
  | s :: rest, line =>
      let line := if line.isEmpty then line else line ++ [' ']
      nut_client_serialize rest (line ++ nut_serialize_field s)

-- --- MPD command serializer --------------------------------------------------

/-- The single-quote character (the MPD protocol's alternate quote). -/
def singleQuote : Char := Char.ofNat 39

/-- `mpd_client_must_quote_char`: a byte at most 0x20 (space and control
characters), the double quote, or the single quote. -/
def mpd_client_must_quote_char (c : Char) : Bool :=
  c.toNat ≤ 0x20 || c = '"' || c = singleQuote

/-- `mpd_client_must_quote`: quote the empty argument and any argument
containing a must-quote byte. -/
def mpd_client_must_quote (s : List Char) : Bool :=
  match s with
  | [] => true
  | _ => s.any mpd_client_must_quote_char

/-- Body of `mpd_client_quote`: backslash-escape every must-quote byte
(note: unlike the NUT variant, this escapes spaces and control bytes
inside the quotes as well). -/
def mpd_quote_body : List Char → List Char
  | [] => []
  | c :: s =>
      (if mpd_client_must_quote_char c then ['\\', c] else [c]) ++ mpd_quote_body s

/-- `mpd_client_quote`: wrap in double quotes, escaping the body. -/
def mpd_client_quote (s : List Char) : List Char :=
  '"' :: (mpd_quote_body s ++ ['"'])

/-- One argument as the loop in `mpd_client_send_commandv` emits it. -/
def mpd_serialize_field (s : List Char) : List Char :=
  if mpd_client_must_quote s then mpd_client_quote s else s

/-- The serialization loop of `mpd_client_send_commandv`: append the
arguments to `line`, separated by single spaces. -/
def mpd_serialize_args : List (List Char) → List Char → List Char
  | [], line => line
  | s :: rest, line =>
      let line := if line.isEmpty then line else line ++ [' ']
      mpd_serialize_args rest (line ++ mpd_serialize_field s)

-- --- Character-class facts ---------------------------------------------------

/-- A whitespace byte is not the backslash. -/
theorem isspace_ne_backslash (c : Char) (h : isspace_ascii c = true) : c ≠ '\\' := by
  intro he; subst he; simp [isspace_ascii] at h

/-- A whitespace byte is not the quote character. -/
theorem isspace_ne_quote (c : Char) (h : isspace_ascii c = true) : c ≠ '"' := by
  intro he; subst he; simp [isspace_ascii] at h

/-- A byte free of the NUT quoting condition is not whitespace. -/
theorem plain_not_space (c : Char) (h : nut_must_quote_char c = false) :
    isspace_ascii c = false := by
  by_contra hs
  have hs' : isspace_ascii c = true := by
    cases hx : isspace_ascii c with
    | false => exact absurd hx hs
    | true => rfl
  have := isspace_ascii_le c hs'
  simp [nut_must_quote_char] at h
  omega

theorem plain_ne_backslash (c : Char) (h : nut_must_quote_char c = false) : c ≠ '\\' := by
  intro he; subst he; simp [nut_must_quote_char] at h

theorem plain_ne_quote (c : Char) (h : nut_must_quote_char c = false) : c ≠ '"' := by
  intro he; subst he; simp [nut_must_quote_char] at h

theorem plain_ne_nl (c : Char) (h : nut_must_quote_char c = false) : c ≠ '\n' := by
  intro he; subst he; simp [nut_must_quote_char] at h

-- --- Single-step unfolding lemmas for the tokenizer --------------------------

theorem nut_feed_step (p : NutParser) (c : Char) (rest : List Char) (p' : NutParser)
    (h : nut_parser_push p c = (p', .more)) :
    nut_feed p (c :: rest) = nut_feed p' rest := by
  simp [nut_feed, h]

theorem nut_feed_step_line (p : NutParser) (c : Char) (rest : List Char) (p' : NutParser)
    (h : nut_parser_push p c = (p', .completeLine)) :
    nut_feed p (c :: rest) =
      (nut_feed p' rest).map (fun q => (q.1, p'.fields :: q.2)) := by
  simp [nut_feed, h]

theorem nut_feed_step_error (p : NutParser) (c : Char) (rest : List Char) (p' : NutParser)
    (h : nut_parser_push p c = (p', .error)) :
    nut_feed p (c :: rest) = none := by
  simp [nut_feed, h]

/-- `NUT_STATE_START_LINE` behaves as `NUT_STATE_BETWEEN` after clearing the
accumulators. -/
theorem nut_push_startLine (cur : List Char) (F : List (List Char)) (c : Char) :
    nut_parser_push ⟨.startLine, cur, F⟩ c = nut_parser_push ⟨.between, [], []⟩ c := rfl

theorem nut_push_quoted_backslash (cur : List Char) (F : List (List Char)) :
    nut_parser_push ⟨.quoted, cur, F⟩ '\\' = (⟨.quotedEscape, cur, F⟩, .more) := rfl

theorem nut_push_quoted_quote (cur : List Char) (F : List (List Char)) :
    nut_parser_push ⟨.quoted, cur, F⟩ '"' = (⟨.quotedEnd, cur, F⟩, .more) := rfl

theorem nut_push_quoted_other (cur : List Char) (F : List (List Char)) (c : Char)
    (h1 : c ≠ '\\') (h2 : c ≠ '"') :
    nut_parser_push ⟨.quoted, cur, F⟩ c = (⟨.quoted, cur ++ [c], F⟩, .more) := by
  unfold nut_parser_push
  dsimp only
  rw [if_neg h1, if_neg h2]

theorem nut_push_quotedEscape (cur : List Char) (F : List (List Char)) (c : Char) :
    nut_parser_push ⟨.quotedEscape, cur, F⟩ c = (⟨.quoted, cur ++ [c], F⟩, .more) := rfl

theorem nut_push_between_quote (cur : List Char) (F : List (List Char)) :
    nut_parser_push ⟨.between, cur, F⟩ '"' = (⟨.quoted, cur, F⟩, .more) := rfl

theorem nut_push_between_plain (cur : List Char) (F : List (List Char)) (c : Char)
    (h : nut_must_quote_char c = false) :
    nut_parser_push ⟨.between, cur, F⟩ c = (⟨.unquoted, cur ++ [c], F⟩, .more) := by
  unfold nut_parser_push nut_parser_push_between
  dsimp only
  rw [if_neg (plain_ne_backslash c h), if_neg (plain_ne_quote c h)]
  have h1 : (c = '\n' && !(F.isEmpty)) = false := by
    simp [plain_ne_nl c h]
  rw [if_neg (by simp [h1]), if_pos (by simp [plain_not_space c h])]

theorem nut_push_unquoted_plain (cur : List Char) (F : List (List Char)) (c : Char)
    (h : nut_must_quote_char c = false) :
    nut_parser_push ⟨.unquoted, cur, F⟩ c = (⟨.unquoted, cur ++ [c], F⟩, .more) := by
  unfold nut_parser_push
  dsimp only
  rw [if_neg (plain_ne_backslash c h), if_neg (plain_ne_quote c h),
    if_pos (by simp [plain_not_space c h])]

theorem nut_push_unquoted_space (cur : List Char) (F : List (List Char)) (c : Char)
    (h : isspace_ascii c = true) :
    nut_parser_push ⟨.unquoted, cur, F⟩ c = nut_parser_end_field ⟨.unquoted, cur, F⟩ c := by
  unfold nut_parser_push
  dsimp only
  rw [if_neg (isspace_ne_backslash c h), if_neg (isspace_ne_quote c h),
    if_neg (by simp [h])]

theorem nut_push_quotedEnd_space (cur : List Char) (F : List (List Char)) (c : Char)
    (h : isspace_ascii c = true) :
    nut_parser_push ⟨.quotedEnd, cur, F⟩ c = nut_parser_end_field ⟨.quotedEnd, cur, F⟩ c := by
  unfold nut_parser_push
  dsimp only
  rw [if_neg (by simp [h])]

theorem nut_end_field_nl (st : NutParserState) (cur : List Char) (F : List (List Char)) :
    nut_parser_end_field ⟨st, cur, F⟩ '\n' =
      (⟨.startLine, [], F ++ [cur]⟩, .completeLine) := rfl

theorem nut_end_field_other (st : NutParserState) (cur : List Char) (F : List (List Char))
    (c : Char) (h : c ≠ '\n') :
    nut_parser_end_field ⟨st, cur, F⟩ c = (⟨.between, [], F ++ [cur]⟩, .more) := by
  unfold nut_parser_end_field
  dsimp only
  rw [if_neg h]

-- --- Incrementality of the fused framer/tokenizer ----------------------------

/-- Feeding a concatenation of two byte sequences composes the two runs:
the NUT framer/tokenizer is insensitive to how input is chunked. -/
theorem nut_feed_append (p : NutParser) (xs ys : List Char) :
    nut_feed p (xs ++ ys) =
      (nut_feed p xs).bind
        (fun q => (nut_feed q.1 ys).map (fun r => (r.1, q.2 ++ r.2))) := by
  induction xs generalizing p with
  | nil =>
    simp only [List.nil_append, nut_feed, Option.some_bind]
    cases nut_feed p ys with
    | none => rfl
    | some q => rfl
  | cons c rest ih =>
    rcases hp : nut_parser_push p c with ⟨p', r⟩
    cases r with
    | error =>
      simp only [List.cons_append, nut_feed_step_error _ _ _ _ hp, Option.none_bind]
    | more =>
      simp only [List.cons_append, nut_feed_step _ _ _ _ hp]
      exact ih p'
    | completeLine =>
      simp only [List.cons_append, nut_feed_step_line _ _ _ _ hp]
      rw [ih p']
      cases hf : nut_feed p' rest with
      | none => rfl
      | some q =>
        cases hg : nut_feed q.1 ys with
        | none => simp [hg]
        | some r => simp [hg]

-- --- Consumption of one serialized field -------------------------------------

/-- Feeding the escaped body of a quoted field, from within the quotes,
accumulates exactly the original field. -/
theorem nut_feed_quote_body (s : List Char) (cur : List Char)
    (F : List (List Char)) (rest : List Char) :
    nut_feed ⟨.quoted, cur, F⟩ (nut_quote_body s ++ '"' :: rest) =
      nut_feed ⟨.quotedEnd, cur ++ s, F⟩ rest := by
  induction s generalizing cur with
  | nil =>
    simp only [nut_quote_body, List.nil_append, List.append_nil]
    rw [nut_feed_step _ _ _ _ (nut_push_quoted_quote cur F)]
  | cons c s ih =>
    by_cases hc : c = '"' ∨ c = '\\'
    · have hb : (c = '"' || c = '\\') = true := by
        rcases hc with h | h <;> simp [h]
      simp only [nut_quote_body, hb, if_pos, List.cons_append, List.append_assoc,
        List.nil_append]
      rw [nut_feed_step _ _ _ _ (nut_push_quoted_backslash cur F),
        nut_feed_step _ _ _ _ (nut_push_quotedEscape cur F c), ih (cur ++ [c])]
      simp
    · push_neg at hc
      have hb : (c = '"' || c = '\\') = false := by simp [hc.1, hc.2]
      simp only [nut_quote_body, hb, Bool.false_eq_true, if_false, List.cons_append,
        List.nil_append]
      rw [nut_feed_step _ _ _ _ (nut_push_quoted_other cur F c hc.2 hc.1), ih (cur ++ [c])]
      simp

/-- Feeding a run of quoting-free bytes in an unquoted field appends them
all to the current field. -/
theorem nut_feed_unquoted (s : List Char) (cur : List Char)
    (F : List (List Char)) (rest : List Char)
    (h : ∀ c ∈ s, nut_must_quote_char c = false) :
    nut_feed ⟨.unquoted, cur, F⟩ (s ++ rest) = nut_feed ⟨.unquoted, cur ++ s, F⟩ rest := by
  induction s generalizing cur with
  | nil => simp
  | cons c s ih =>
    have hc := h c (by simp)
    simp only [List.cons_append]
    rw [nut_feed_step _ _ _ _ (nut_push_unquoted_plain cur F c hc),
      ih (cur ++ [c]) (fun d hd => h d (by simp [hd]))]
    simp

/-- After one whole serialized field followed by one whitespace byte, the
automaton has committed exactly the original field; a line feed completes
the line. -/
theorem nut_feed_field (s : List Char) (F : List (List Char)) (c : Char)
    (rest : List Char) (hsp : isspace_ascii c = true) :
    nut_feed ⟨.between, [], F⟩ (nut_serialize_field s ++ c :: rest) =
      if c = '\n' then
        (nut_feed ⟨.startLine, [], F ++ [s]⟩ rest).map
          (fun q => (q.1, (F ++ [s]) :: q.2))
      else
        nut_feed ⟨.between, [], F ++ [s]⟩ rest := by
  unfold nut_serialize_field
  by_cases hq : nut_client_must_quote s = true
  · rw [if_pos hq]
    unfold nut_client_quote
    simp only [List.cons_append, List.append_assoc, List.cons_append, List.nil_append]
    rw [nut_feed_step _ _ _ _ (nut_push_between_quote [] F)]
    rw [nut_feed_quote_body s [] F (c :: rest)]
    simp only [List.nil_append]
    by_cases hnl : c = '\n'
    · subst hnl
      rw [if_pos rfl]
      rw [nut_feed_step_line _ _ _ _
        (by rw [nut_push_quotedEnd_space s F '\n' hsp, nut_end_field_nl])]
    · rw [if_neg hnl]
      rw [nut_feed_step _ _ _ _
        (by rw [nut_push_quotedEnd_space s F c hsp, nut_end_field_other _ _ _ _ hnl])]
  · rw [if_neg hq]
    have hplain : ∀ d ∈ s, nut_must_quote_char d = false := by
      intro d hd
      cases s with
      | nil => cases hd
      | cons e s' =>
        by_contra hx
        have : nut_client_must_quote (e :: s') = true := by
          simp only [nut_client_must_quote, List.any_eq_true]
          exact ⟨d, hd, by cases hy : nut_must_quote_char d with
            | true => rfl
            | false => exact absurd hy hx⟩
        exact hq this
    cases s with
    | nil => simp [nut_client_must_quote] at hq
    | cons c0 s' =>
      have hc0 := hplain c0 (by simp)
      simp only [List.cons_append]
      rw [nut_feed_step _ _ _ _ (nut_push_between_plain [] F c0 hc0)]
      simp only [List.nil_append]
      rw [nut_feed_unquoted s' [c0] F (c :: rest) (fun d hd => hplain d (by simp [hd]))]
      simp only [List.nil_append, List.singleton_append]
      by_cases hnl : c = '\n'
      · subst hnl
        rw [if_pos rfl]
        rw [nut_feed_step_line _ _ _ _
          (by rw [nut_push_unquoted_space (c0 :: s') F '\n' hsp, nut_end_field_nl])]
      · rw [if_neg hnl]
        rw [nut_feed_step _ _ _ _
          (by rw [nut_push_unquoted_space (c0 :: s') F c hsp, nut_end_field_other _ _ _ _ hnl])]

-- --- The round trip ----------------------------------------------------------

/-- A serialized field is never empty (the empty argument is quoted). -/
theorem nut_serialize_field_ne_nil (s : List Char) : nut_serialize_field s ≠ [] := by
  unfold nut_serialize_field
  cases s with
  | nil => simp [nut_client_must_quote, nut_client_quote]
  | cons c s => split <;> simp [nut_client_quote]

/-- The tail of a serialized argument list: a space, a field, and so on. -/
def nutJoinTail : List (List Char) → List Char
  | [] => []
  | s :: rest => ' ' :: (nut_serialize_field s ++ nutJoinTail rest)

theorem nut_client_serialize_acc (A : List (List Char)) (line : List Char)
    (h : line ≠ []) : nut_client_serialize A line = line ++ nutJoinTail A := by
  induction A generalizing line with
  | nil => simp [nut_client_serialize, nutJoinTail]
  | cons s rest ih =>
    have hne : line.isEmpty = false := by
      cases line with
      | nil => exact absurd rfl h
      | cons a l => rfl
    simp only [nut_client_serialize, nutJoinTail, hne, Bool.false_eq_true, if_false]
    rw [ih _ (by simp)]
    simp

theorem nut_client_serialize_nil (s : List Char) (A : List (List Char)) :
    nut_client_serialize (s :: A) [] = nut_serialize_field s ++ nutJoinTail A := by
  simp only [nut_client_serialize, List.isEmpty_nil, if_pos, List.nil_append]
  cases A with
  | nil => simp [nut_client_serialize, nutJoinTail]
  | cons s' rest =>
    rw [nut_client_serialize_acc _ _ (nut_serialize_field_ne_nil s)]

theorem nut_feed_join (A : List (List Char)) (s : List Char) (F : List (List Char)) :
    nut_feed ⟨.between, [], F⟩ ((nut_serialize_field s ++ nutJoinTail A) ++ ['\n']) =
      some (⟨.startLine, [], F ++ s :: A⟩, [F ++ s :: A]) := by
  induction A generalizing s F with
  | nil =>
    simp only [nutJoinTail, List.append_nil]
    rw [nut_feed_field s F '\n' [] (by decide), if_pos rfl]
    simp [nut_feed]
  | cons s' A' ih =>
    have hsplit : (nut_serialize_field s ++ nutJoinTail (s' :: A')) ++ ['\n'] =
        nut_serialize_field s ++ ' ' ::
          ((nut_serialize_field s' ++ nutJoinTail A') ++ ['\n']) := by
      simp [nutJoinTail]
    rw [hsplit, nut_feed_field s F ' ' _ (by decide), if_neg (by decide), ih s' (F ++ [s])]
    simp

theorem nut_feed_init_between (input : List Char) (h : input ≠ []) :
    nut_feed nutParserInit input = nut_feed ⟨.between, [], []⟩ input := by
  cases input with
  | nil => exact absurd rfl h
  | cons c rest =>
    show nut_feed ⟨.startLine, [], []⟩ (c :: rest) = _
    simp only [nut_feed, nut_push_startLine]

-- --- Claim C1 ----------------------------------------------------------------

/-- C1, counterexample: for the EMPTY argument list the round trip fails.
`nut_client_serialize [] = ""`, and feeding the terminating line feed to
the tokenizer completes no line at all (a blank line is skipped by
`NUT_STATE_BETWEEN`, which only accepts a line feed when at least one
field has been read), so no line with fields `[]` is ever produced. -/
theorem nut_roundtrip_empty_args_fails :
    nut_feed nutParserInit (nut_client_serialize [] [] ++ ['\n']) =
      some (⟨.between, [], []⟩, []) ∧
    ∀ p : NutParser,
      nut_feed nutParserInit (nut_client_serialize [] [] ++ ['\n']) ≠
        some (p, [[]]) := by
  refine ⟨by decide, ?_⟩
  intro p h
  have h1 : nut_feed nutParserInit (nut_client_serialize [] [] ++ ['\n']) =
      some (⟨.between, [], []⟩, ([] : List (List (List Char)))) := by decide
  rw [h1] at h
  simp at h

/-- C1, amended: for every NONEMPTY argument list `A` whose strings contain
no NUL byte and no line feed, running the NUT line tokenizer
(`nut_parser_push` over each byte) on the output of `nut_client_serialize`
plus a terminating line feed completes exactly one line, whose fields are
exactly `A`, in order.  (The empty argument list serializes to a blank
line, which the tokenizer skips; see the counterexample.) -/
theorem nut_serialize_tokenize_roundtrip (A : List (List Char)) (hne : A ≠ [])
    (_hok : ∀ s ∈ A, ∀ c ∈ s, c ≠ Char.ofNat 0 ∧ c ≠ '\n') :
    nut_feed nutParserInit (nut_client_serialize A [] ++ ['\n']) =
      some ({ state := .startLine, current_field := [], fields := A }, [A]) := by
  cases A with
  | nil => exact absurd rfl hne
  | cons s A' =>
    rw [nut_client_serialize_nil s A']
    rw [nut_feed_init_between _ (by
      intro hx
      have hf := nut_serialize_field_ne_nil s
      cases hy : nut_serialize_field s with
      | nil => exact hf hy
      | cons a l => rw [hy] at hx; simp at hx)]
    have := nut_feed_join A' s []
    simpa using this

/-- Witness for the round-trip theorem at a concrete argument list. -/
theorem nut_serialize_tokenize_roundtrip_witness :
    nut_feed nutParserInit
        (nut_client_serialize ["setvar".toList, "hello world".toList] [] ++ ['\n']) =
      some ({ state := .startLine, current_field := [],
              fields := ["setvar".toList, "hello world".toList] },
            [["setvar".toList, "hello world".toList]]) :=
  nut_serialize_tokenize_roundtrip _ (by decide) (by decide)

-- --- Claim C2 ----------------------------------------------------------------

/-- C2, counterexample: the MPD serializer does NOT leave the interior
space of `"hello world"` unescaped — `mpd_client_quote` backslash-escapes
every must-quote byte, the space included — so the claimed exact bytes
`setvar "hello world" "a\"b"` are not what the MPD variant produces. -/
theorem mpd_serialize_example_escapes_space :
    mpd_serialize_args ["setvar".toList, "hello world".toList, ['a', '"', 'b']] [] =
      "setvar \"hello\\ world\" \"a\\\"b\"".toList ∧
    mpd_serialize_args ["setvar".toList, "hello world".toList, ['a', '"', 'b']] [] ≠
      "setvar \"hello world\" \"a\\\"b\"".toList := by
  decide

/-- C2, amended: serializing `["setvar", "hello world", "a\"b"]` with the
NUT serializer produces exactly the bytes `setvar "hello world" "a\"b"` —
the second argument quoted with its interior space left unescaped, the
third quoted with the embedded quote backslash-escaped, the three joined
by single spaces.  The MPD serializer produces the same except for its
escape policy: it also backslash-escapes the interior space, yielding
`setvar "hello\ world" "a\"b"`. -/
theorem serialize_quoting_example :
    nut_client_serialize ["setvar".toList, "hello world".toList, ['a', '"', 'b']] [] =
      "setvar \"hello world\" \"a\\\"b\"".toList ∧
    mpd_serialize_args ["setvar".toList, "hello world".toList, ['a', '"', 'b']] [] =
      "setvar \"hello\\ world\" \"a\\\"b\"".toList := by
  decide

-- --- Claim C3 ----------------------------------------------------------------

/-- C3, counterexample: `mpd_client_must_quote` also quotes an argument
containing a single quote (MPD's alternate quote character), although the
argument is nonempty and contains no byte at most 0x20, no double quote
and no backslash — so the claimed iff fails for the MPD serializer. -/
theorem mpd_must_quote_single_quote :
    mpd_client_must_quote ['d', 'o', 'n', singleQuote, 't'] = true ∧
    ['d', 'o', 'n', singleQuote, 't'] ≠ ([] : List Char) ∧
    (∀ c ∈ ['d', 'o', 'n', singleQuote, 't'],
      ¬(c.toNat ≤ 0x20 ∨ c = '"' ∨ c = '\\')) := by
  decide

/-- C3, amended: an argument is quoted iff it is empty, contains a byte at
most 0x20, or contains a quote character — where the NUT grammar counts
the backslash as well (exactly as the claim says), and the MPD grammar
counts the single quote (its alternate quote character) as a quote
character, which the claim omits.  An argument meeting none of these
conditions is emitted verbatim by both serializers. -/
theorem must_quote_characterization :
    (∀ s : List Char,
      nut_client_must_quote s = true ↔
        s = [] ∨ ∃ c ∈ s, c.toNat ≤ 0x20 ∨ c = '"' ∨ c = '\\') ∧
    (∀ s : List Char,
      mpd_client_must_quote s = true ↔
        s = [] ∨ ∃ c ∈ s, c.toNat ≤ 0x20 ∨ c = '"' ∨ c = singleQuote) ∧
    (∀ s : List Char, nut_client_must_quote s = false → nut_serialize_field s = s) ∧
    (∀ s : List Char, mpd_client_must_quote s = false → mpd_serialize_field s = s) := by
  refine ⟨?_, ?_, ?_, ?_⟩
  · intro s
    cases s with
    | nil => simp [nut_client_must_quote]
    | cons c t =>
      simp [nut_client_must_quote, nut_must_quote_char, List.any_eq_true, or_assoc]
  · intro s
    cases s with
    | nil => simp [mpd_client_must_quote]
    | cons c t =>
      simp [mpd_client_must_quote, mpd_client_must_quote_char, List.any_eq_true, or_assoc]
  · intro s h
    simp [nut_serialize_field, h]
  · intro s h
    simp [mpd_serialize_field, h]

/-- Witness for the quoting characterization at concrete arguments. -/
theorem must_quote_characterization_witness :
    nut_serialize_field "beeper.status".toList = "beeper.status".toList ∧
    mpd_serialize_field "status".toList = "status".toList :=
  ⟨must_quote_characterization.2.2.1 _ (by decide),
   must_quote_characterization.2.2.2 _ (by decide)⟩

-- --- MPD line framer (`mpd_client_process_input`) ----------------------------

/-- The line-splitting loop of `mpd_client_process_input`: scan the
accumulated read buffer, cut out each prefix up to (and excluding) a line
feed as a complete line, and keep the data after the last line feed as the
pending partial line. -/
def mpd_extract_lines : List Char → List (List Char) × List Char
  | [] => ([], [])
  | c :: rest =>
      if c = '\n' then
        (([] : List Char) :: (mpd_extract_lines rest).1, (mpd_extract_lines rest).2)
      else
        match mpd_extract_lines rest with
        | ([], r) => ([], c :: r)
        | (l :: ls, r) => ((c :: l) :: ls, r)

/-- Splitting a concatenation: the lines of the first part, then the lines
of its remainder glued to the second part. -/
theorem mpd_extract_lines_append (xs ys : List Char) :
    mpd_extract_lines (xs ++ ys) =
      ((mpd_extract_lines xs).1 ++
        (mpd_extract_lines ((mpd_extract_lines xs).2 ++ ys)).1,
       (mpd_extract_lines ((mpd_extract_lines xs).2 ++ ys)).2) := by
  induction xs with
  | nil => simp [mpd_extract_lines]
  | cons c xs' ih =>
    by_cases hc : c = '\n'
    · subst hc
      simp [mpd_extract_lines, ih]
    · rcases hE : mpd_extract_lines xs' with ⟨E1, E2⟩
      rcases hF : mpd_extract_lines (E2 ++ ys) with ⟨F1, F2⟩
      have ih' : mpd_extract_lines (xs' ++ ys) = (E1 ++ F1, F2) := by
        rw [ih, hE, hF]
      cases E1 with
      | nil =>
        cases F1 with
        | nil => simp [mpd_extract_lines, hc, ih', hE, hF]
        | cons f fs => simp [mpd_extract_lines, hc, ih', hE, hF]
      | cons e es => simp [mpd_extract_lines, hc, ih', hE, hF]

/-- A buffer without a line feed yields no lines and is kept whole. -/
theorem mpd_extract_lines_no_nl (b : List Char) (h : '\n' ∉ b) :
    mpd_extract_lines b = ([], b) := by
  induction b with
  | nil => rfl
  | cons c b' ih =>
    have hc : c ≠ '\n' := fun he => h (he ▸ List.mem_cons_self c b')
    have hb : '\n' ∉ b' := fun hm => h (List.mem_cons_of_mem c hm)
    simp [mpd_extract_lines, hc, ih hb]

-- --- Claim C4 ----------------------------------------------------------------

/-- C4: the line framer is incremental.  Processing one chunk and then a
second (each time over the retained partial line plus the new chunk, as
`mpd_client_process_input` is called after each socket read) yields
exactly the lines of processing the whole sequence at once, with the same
final partial line; a chunk without a line feed arriving on top of a
delimiter-free pending buffer emits no line and retains the buffer
unchanged; and the byte-at-a-time NUT framer/tokenizer composes over any
chunking of its input the same way. -/
theorem line_framer_incremental :
    (∀ c1 c2 : List Char,
      (mpd_extract_lines (c1 ++ c2)).1 =
        (mpd_extract_lines c1).1 ++
          (mpd_extract_lines ((mpd_extract_lines c1).2 ++ c2)).1 ∧
      (mpd_extract_lines (c1 ++ c2)).2 =
        (mpd_extract_lines ((mpd_extract_lines c1).2 ++ c2)).2) ∧
    (∀ pending chunk : List Char, '\n' ∉ pending → '\n' ∉ chunk →
      mpd_extract_lines (pending ++ chunk) = ([], pending ++ chunk)) ∧
    (∀ (p : NutParser) (c1 c2 : List Char),
      nut_feed p (c1 ++ c2) =
        (nut_feed p c1).bind
          (fun q => (nut_feed q.1 c2).map (fun r => (r.1, q.2 ++ r.2)))) := by
  refine ⟨?_, ?_, ?_⟩
  · intro c1 c2
    rw [mpd_extract_lines_append c1 c2]
    exact ⟨rfl, rfl⟩
  · intro pending chunk h1 h2
    apply mpd_extract_lines_no_nl
    intro hm
    rcases List.mem_append.1 hm with h | h
    · exact h1 h
    · exact h2 h
  · exact nut_feed_append

/-- Witness: the spec's own example, `"OK M"` then `"PD 0.21\n"`, plus the
no-delimiter case at a concrete chunk pair. -/
theorem line_framer_incremental_witness :
    mpd_extract_lines ("OK M".toList ++ "PD 0".toList) = ([], "OK MPD 0".toList) ∧
    (mpd_extract_lines ("OK M".toList ++ "PD 0.21\n".toList)).1 =
      (mpd_extract_lines "OK M".toList).1 ++
        (mpd_extract_lines ((mpd_extract_lines "OK M".toList).2 ++ "PD 0.21\n".toList)).1 :=
  ⟨line_framer_incremental.2.1 "OK M".toList "PD 0".toList (by decide) (by decide),
   (line_framer_incremental.1 "OK M".toList "PD 0.21\n".toList).1⟩

-- --- MPD client state machine (`struct mpd_client`) --------------------------

/-- `enum mpd_client_state`. -/
inductive MpdClientState
  | disconnected   -- MPD_DISCONNECTED
  | connecting     -- MPD_CONNECTING
  | connected      -- MPD_CONNECTED
  deriving DecidableEq, Repr

/-- Identity of a task's completion callback (`mpd_client_task_cb`):
either the client's own `mpd_client_on_idle_return`, or a caller-supplied
callback, distinguished by an opaque id. -/
inductive MpdCallback
  | idleReturn
  | user (id : Nat)
  deriving DecidableEq, Repr

/-- `struct mpd_response` (the parsed outcome handed to a callback). -/
structure mpd_response where
  success : Bool
  error : Nat
  list_offset : Nat
  current_command : Option (List Char)
  message_text : Option (List Char)
  deriving DecidableEq, Repr

/-- Observable callback invocations of the MPD client.  A task entry is
its optional callback (`task->callback` may be NULL); completing a task
with a callback emits `taskCompleted` with the response and the
accumulated data lines, and `mpd_client_fail` emits `onFailure` (the
`on_failure` user callback, modelled as always registered). -/
inductive MpdEvent
  | taskCompleted (cb : MpdCallback) (response : mpd_response) (data : List (List Char))
  | onFailure
  deriving DecidableEq, Repr

/-- `struct mpd_client`.  The poller, connector and socket-event plumbing
are external collaborators; the watchdog timer is modelled by whether it
is armed.  `socket` is `none` for the C sentinel `-1`. -/
structure mpd_client where
  state : MpdClientState
  socket : Option Nat
  read_buffer : List Char
  write_buffer : List Char
  data : List (List Char)
  got_hello : Bool
  idling : Bool
  idling_subsystems : Nat
  in_list : Bool
  tasks : List (Option MpdCallback)
  timer_active : Bool
  deriving DecidableEq, Repr

/-- The initial interface state (`mpd_client_init`: all-zero fields,
`socket = -1`). -/
def mpd_client_init : mpd_client :=
  { state := .disconnected, socket := none, read_buffer := [], write_buffer := [],
    data := [], got_hello := false, idling := false, idling_subsystems := 0,
    in_list := false, tasks := [], timer_active := false }

/-- `mpd_client_reset`: release the socket, reset the timer, clear both
buffers and the accumulated data, free every queued task without invoking
any callback, and return to `MPD_DISCONNECTED` — field by field this
restores the initial state. -/
def mpd_client_reset (_ : mpd_client) : mpd_client := mpd_client_init

/-- `mpd_client_fail`: full reset, then the single `on_failure` callback. -/
def mpd_client_fail (c : mpd_client) : mpd_client × List MpdEvent :=
  (mpd_client_reset c, [MpdEvent.onFailure])

/-- `mpd_client_dispatch`: if the task queue is empty, do nothing
(unsolicited responses are silently ignored); otherwise pop exactly the
head task, invoke its callback (when present) with the response and the
accumulated data, and clear the data. -/
def mpd_client_dispatch (c : mpd_client) (response : mpd_response) :
    mpd_client × List MpdEvent :=
  match c.tasks with
  | [] => (c, [])
  | t :: rest =>
      let evs := match t with
        | some cb => [MpdEvent.taskCompleted cb response c.data]
        | none => ([] : List MpdEvent)
      ({ c with tasks := rest, data := [] }, evs)

/-- `mpd_client_add_task`: append a task to the tail of the queue. -/
def mpd_client_add_task (c : mpd_client) (cb : Option MpdCallback) : mpd_client :=
  { c with tasks := c.tasks ++ [cb] }

/-- The unconditional part of `mpd_client_send_commandv`: serialize the
arguments into one line and append it, with the terminating line feed, to
the output buffer. -/
def mpd_client_write_command (c : mpd_client) (commands : List (List Char)) : mpd_client :=
  { c with write_buffer := c.write_buffer ++ mpd_serialize_args commands [] ++ ['\n'] }

/-- `mpd_client_send_commandv`: when idling, first reset the watchdog
timer, clear the idling flag and mask, and send `noidle` (in the C code
this is a recursive `mpd_client_send_command (self, "noidle", NULL)`;
since `idling` has already been cleared, that call reduces to a plain
line write), then serialize and send the command itself. -/
def mpd_client_send_commandv (c : mpd_client) (commands : List (List Char)) : mpd_client :=
  if c.idling then
    let c := { c with timer_active := false, idling := false, idling_subsystems := 0 }
    mpd_client_write_command (mpd_client_write_command c ["noidle".toList]) commands
  else
    mpd_client_write_command c commands

/-- `mpd_subsystem_names` (from `MPD_SUBSYSTEM_TABLE`). -/
def mpd_subsystem_names : List (List Char) :=
  ["database".toList, "update".toList, "stored_playlist".toList, "playlist".toList,
   "player".toList, "mixer".toList, "output".toList, "options".toList,
   "sticker".toList, "subscription".toList, "message".toList]

/-- The argument vector built by `mpd_client_idle`: `idle` followed by the
names of the subsystems whose bit is set in the mask. -/
def mpd_idle_args (subsystems : Nat) : List (List Char) :=
  "idle".toList ::
    (List.range mpd_subsystem_names.length).filterMap
      (fun i => if subsystems &&& (1 <<< i) ≠ 0 then mpd_subsystem_names[i]? else none)

/-- `mpd_client_idle`: send the `idle` command (interrupting a previous
idle if necessary), arm the watchdog timer, enqueue the
`mpd_client_on_idle_return` task, and flag idling with the given mask. -/
def mpd_client_idle (c : mpd_client) (subsystems : Nat) : mpd_client :=
  let c := mpd_client_send_commandv c (mpd_idle_args subsystems)
  let c := { c with timer_active := true }
  let c := mpd_client_add_task c (some .idleReturn)
  { c with idling := true, idling_subsystems := subsystems }

/-- `mpd_client_on_timeout`: capture the idling mask, send `ping` (which
interrupts the idle in progress) with an anonymous task for its reply,
and restore the idle for the captured mask immediately. -/
def mpd_client_on_timeout (c : mpd_client) : mpd_client :=
  let subsystems := c.idling_subsystems
  let c := mpd_client_send_commandv c ["ping".toList]
  let c := mpd_client_add_task c none
  mpd_client_idle c subsystems

-- --- NUT client state machine (`struct nut_client`) --------------------------

/-- `enum nut_client_state`. -/
inductive NutClientState
  | disconnected   -- NUT_DISCONNECTED
  | connecting     -- NUT_CONNECTING
  | connected      -- NUT_CONNECTED
  deriving DecidableEq, Repr

/-- `struct nut_response`: the accumulated data lines (each a field list),
a success flag, and on failure the error ID string. -/
structure nut_response where
  data : List (List (List Char))
  success : Bool
  message : Option (List Char)
  deriving DecidableEq, Repr

/-- Observable callback invocations of the NUT client; a task entry is
its optional callback id (`task->callback` may be NULL). -/
inductive NutEvent
  | taskCompleted (cb : Nat) (response : nut_response)
  | onFailure
  deriving DecidableEq, Repr

/-- `struct nut_client`.  The poller/connector plumbing is external;
`socket` is `none` for the C sentinel `-1`. -/
structure nut_client where
  state : NutClientState
  socket : Option Nat
  read_buffer : List Char
  write_buffer : List Char
  parser : NutParser
  data : List (List (List Char))
  in_list : Bool
  tasks : List (Option Nat)
  deriving DecidableEq, Repr

/-- `nut_client_init`. -/
def nut_client_init : nut_client :=
  { state := .disconnected, socket := none, read_buffer := [], write_buffer := [],
    parser := nutParserInit, data := [], in_list := false, tasks := [] }

/-- `nut_client_reset`: release the socket, clear both buffers, reset the
tokenizer to `NUT_STATE_START_LINE` (its accumulators are cleared lazily
on the next line start), flush the accumulated data, drop every queued
task without invoking any callback, and return to `NUT_DISCONNECTED`. -/
def nut_client_reset (c : nut_client) : nut_client :=
  { state := .disconnected, socket := none, read_buffer := [], write_buffer := [],
    parser := { c.parser with state := .startLine }, data := [], in_list := false,
    tasks := [] }

/-- `nut_client_fail`: full reset, then the single `on_failure` callback. -/
def nut_client_fail (c : nut_client) : nut_client × List NutEvent :=
  (nut_client_reset c, [NutEvent.onFailure])

/-- `nut_client_dispatch`: if the task queue is empty, do nothing;
otherwise pop exactly the head task, invoke its callback (when present)
with the response, and flush the accumulated data. -/
def nut_client_dispatch (c : nut_client) (success : Bool)
    (message : Option (List Char)) : nut_client × List NutEvent :=
  match c.tasks with
  | [] => (c, [])
  | t :: rest =>
      let response : nut_response := { data := c.data, success := success, message := message }
      let evs := match t with
        | some cb => [NutEvent.taskCompleted cb response]
        | none => ([] : List NutEvent)
      ({ c with tasks := rest, data := [] }, evs)

/-- `nut_client_parse_line`: classify the just-completed line.
`BEGIN LIST` / `END LIST` toggle the list bracket (and are not data);
any other line is appended to the data.  Outside a list the response is
dispatched: an `ERR` line with a message makes a failed response, an
`ERR` line without one is a parse failure (`false`), anything else a
successful response.  The `Bool` is the C return value. -/
def nut_client_parse_line (c : nut_client) : nut_client × List NutEvent × Bool :=
  let fields := c.parser.fields
  if fields.take 2 = ["BEGIN".toList, "LIST".toList] then
    ({ c with in_list := true }, [], true)
  else
    let c :=
      if fields.take 2 = ["END".toList, "LIST".toList] then
        { c with in_list := false }
      else
        { c with data := c.data ++ [fields] }
    if c.in_list then (c, [], true)
    else
      match fields with
      | f0 :: frest =>
          if f0 = "ERR".toList then
            match frest with
            | msg :: _ =>
                let r := nut_client_dispatch c false (some msg)
                (r.1, r.2, true)
            | [] => (c, [], false)
          else
            let r := nut_client_dispatch c true none
            (r.1, r.2, true)
      | [] =>
          -- Unreachable: a completed line always carries at least one
          -- field (`hard_assert (fields->len != 0)` in the C code).
          (c, [], false)

/-- The loop of `nut_client_process_input`: push each byte into the
tokenizer; stop with `false` on a hard parse error or on a failing
`nut_client_parse_line`, keeping the events already delivered. -/
def nut_client_process_loop (c : nut_client) : List Char → nut_client × List NutEvent × Bool
  | [] => (c, [], true)
  | b :: rest =>
      let pr := nut_parser_push c.parser b
      let c' := { c with parser := pr.1 }
      match pr.2 with
      | .error => (c', [], false)
      | .more => nut_client_process_loop c' rest
      | .completeLine =>
          match nut_client_parse_line c' with
          | (c2, evs, true) =>
              let r := nut_client_process_loop c2 rest
              (r.1, evs ++ r.2.1, r.2.2)
          | (c2, evs, false) => (c2, evs, false)

/-- `nut_client_process_input`: run the loop over the read buffer and, on
success, clear the consumed buffer (`str_reset`). -/
def nut_client_process_input (c : nut_client) : nut_client × List NutEvent × Bool :=
  match nut_client_process_loop c c.read_buffer with
  | (c', evs, true) => ({ c' with read_buffer := [] }, evs, true)
  | (c', evs, false) => (c', evs, false)

/-- `nut_client_on_ready`: append the bytes delivered by the socket read
to the read buffer, process ALL of them whether or not the read itself
succeeded, and fail the connection when the processing, the read, or the
subsequent write failed.  (`read_ok`/`write_ok` abstract the outcomes of
`socket_io_try_read`/`socket_io_try_write`; the bytes the write drains
from the output buffer are external I/O irrelevant to the claims.) -/
def nut_client_on_ready (c : nut_client) (input : List Char)
    (read_ok write_ok : Bool) : nut_client × List NutEvent :=
  let c := { c with read_buffer := c.read_buffer ++ input }
  let pr := nut_client_process_input c
  if pr.2.2 && read_ok && write_ok then
    (pr.1, pr.2.1)
  else
    let f := nut_client_fail pr.1
    (f.1, pr.2.1 ++ f.2)

-- --- Claim C5 ----------------------------------------------------------------

/-- One interaction with the task queue: a task enqueue
(`mpd_client_add_task`) or the arrival of a terminal response
(`mpd_client_dispatch`). -/
inductive MpdQueueOp
  | enq (cb : Option MpdCallback)
  | disp (response : mpd_response)

/-- Run a sequence of queue interactions, concatenating the emitted
events. -/
def mpd_run_queue (c : mpd_client) : List MpdQueueOp → mpd_client × List MpdEvent
  | [] => (c, [])
  | .enq cb :: ops => mpd_run_queue (mpd_client_add_task c cb) ops
  | .disp r :: ops =>
      let d := mpd_client_dispatch c r
      let rest := mpd_run_queue d.1 ops
      (rest.1, d.2 ++ rest.2)

/-- The callbacks enqueued by a sequence of interactions, in order. -/
def enqueuedCbs : List MpdQueueOp → List (Option MpdCallback)
  | [] => []
  | .enq cb :: ops => cb :: enqueuedCbs ops
  | .disp _ :: ops => enqueuedCbs ops

/-- The callbacks completed by a sequence of events, in order. -/
def completedCbs : List MpdEvent → List MpdCallback
  | [] => []
  | .taskCompleted cb _ _ :: evs => cb :: completedCbs evs
  | .onFailure :: evs => completedCbs evs

/-- C5: the task queue is strict FIFO with exactly-once completion.
Dispatching on an empty queue is a no-op; dispatching on a nonempty queue
pops exactly the head and fires its callback once; and over any
interaction sequence (all tasks carrying callbacks), the completed
callbacks followed by the still-queued ones are exactly the initial queue
followed by the enqueued callbacks, in order — so callbacks fire exactly
once each, in precisely enqueue order. -/
theorem mpd_task_queue_fifo :
    (∀ (c : mpd_client) (r : mpd_response), c.tasks = [] →
      mpd_client_dispatch c r = (c, [])) ∧
    (∀ (c : mpd_client) (r : mpd_response) (t : Option MpdCallback)
        (rest : List (Option MpdCallback)), c.tasks = t :: rest →
      (mpd_client_dispatch c r).1.tasks = rest ∧
      (mpd_client_dispatch c r).2 =
        (match t with
         | some cb => [MpdEvent.taskCompleted cb r c.data]
         | none => [])) ∧
    (∀ (c : mpd_client) (ops : List MpdQueueOp),
      (∀ t ∈ c.tasks, t.isSome) → (∀ t ∈ enqueuedCbs ops, t.isSome) →
      (completedCbs (mpd_run_queue c ops).2).map Option.some ++
          (mpd_run_queue c ops).1.tasks =
        c.tasks ++ enqueuedCbs ops) := by
  refine ⟨?_, ?_, ?_⟩
  · intro c r h
    simp [mpd_client_dispatch, h]
  · intro c r t rest h
    simp [mpd_client_dispatch, h]
  · intro c ops hq he
    induction ops generalizing c with
    | nil => simp [mpd_run_queue, completedCbs, enqueuedCbs]
    | cons op ops ih =>
      cases op with
      | enq cb =>
        have hcb : cb.isSome := he cb (by simp [enqueuedCbs])
        have := ih (mpd_client_add_task c cb)
          (by
            intro t ht
            simp only [mpd_client_add_task, List.mem_append, List.mem_singleton] at ht
            rcases ht with ht | ht
            · exact hq t ht
            · exact ht ▸ hcb)
          (fun t ht => he t (by simp [enqueuedCbs, ht]))
        simp only [mpd_run_queue, enqueuedCbs]
        rw [this]
        simp [mpd_client_add_task]
      | disp r =>
        cases hc : c.tasks with
        | nil =>
          simp only [mpd_run_queue, mpd_client_dispatch, hc]
          have := ih c (by simp [hc]) (fun t ht => he t (by simp [enqueuedCbs, ht]))
          rw [hc] at this
          simpa [enqueuedCbs] using this
        | cons t rest =>
          have ht : t.isSome := hq t (by simp [hc])
          rcases Option.isSome_iff_exists.1 ht with ⟨cb, rfl⟩
          simp only [mpd_run_queue, mpd_client_dispatch, hc]
          have := ih { c with tasks := rest, data := [] }
            (by
              intro u hu
              exact hq u (by simp [hc, hu]))
            (fun u hu => he u (by simp [enqueuedCbs, hu]))
          simp only at this
          simp only [enqueuedCbs, hc]
          simp [completedCbs, this]
  
/-- A successful terminal response, for concrete traces. -/
def mpd_response_ok : mpd_response :=
  { success := true, error := 0, list_offset := 0,
    current_command := none, message_text := none }

/-- A failed terminal response (`ACK`), for concrete traces. -/
def mpd_response_err : mpd_response :=
  { success := false, error := 5, list_offset := 0,
    current_command := some "play".toList, message_text := some "error".toList }

/-- Witness for the FIFO theorem at a concrete interaction trace. -/
theorem mpd_task_queue_fifo_witness :
    (completedCbs
        (mpd_run_queue { mpd_client_init with tasks := [some (.user 1)] }
          [.enq (some (.user 2)), .disp mpd_response_ok, .disp mpd_response_err]).2).map
        Option.some ++
      (mpd_run_queue { mpd_client_init with tasks := [some (.user 1)] }
          [.enq (some (.user 2)), .disp mpd_response_ok, .disp mpd_response_err]).1.tasks =
    [some (.user 1)] ++ [some (.user 2)] :=
  mpd_task_queue_fifo.2.2 _ _ (by decide) (by decide)

-- --- Claim C6 ----------------------------------------------------------------

/-- C6: a failure performs a full reset — state `Disconnected`, socket
released, both byte buffers and the accumulated data cleared, the timer
disarmed, every queued task discarded — and the failure handler emits
exactly one `onFailure` event and zero task-callback events; the state
paired with the event is the fully reset one, so `on_failure` never
observes half-torn-down state.  The same holds for the NUT client. -/
theorem mpd_fail_resets_everything :
    (∀ c : mpd_client,
      mpd_client_fail c = (mpd_client_init, [MpdEvent.onFailure]) ∧
      (mpd_client_fail c).1.state = .disconnected ∧
      (mpd_client_fail c).1.socket = none ∧
      (mpd_client_fail c).1.read_buffer = [] ∧
      (mpd_client_fail c).1.write_buffer = [] ∧
      (mpd_client_fail c).1.data = [] ∧
      (mpd_client_fail c).1.tasks = [] ∧
      (mpd_client_fail c).1.timer_active = false ∧
      completedCbs (mpd_client_fail c).2 = []) ∧
    (∀ c : nut_client,
      nut_client_fail c = (nut_client_reset c, [NutEvent.onFailure]) ∧
      (nut_client_fail c).1.state = .disconnected ∧
      (nut_client_fail c).1.socket = none ∧
      (nut_client_fail c).1.read_buffer = [] ∧
      (nut_client_fail c).1.write_buffer = [] ∧
      (nut_client_fail c).1.data = [] ∧
      (nut_client_fail c).1.tasks = []) := by
  constructor
  · intro c
    refine ⟨rfl, rfl, rfl, rfl, rfl, rfl, rfl, rfl, rfl⟩
  · intro c
    refine ⟨rfl, rfl, rfl, rfl, rfl, rfl, rfl⟩

-- --- Claim C7 ----------------------------------------------------------------

/-- Scenario of claim C7: with the client idling (after `mpd_client_idle`
on a quiet connection), a new command is sent
(`mpd_client_send_commandv`) and its task enqueued
(`mpd_client_add_task`). -/
def mpd_idle_then_command (c0 : mpd_client) (mask : Nat) (cmd : List (List Char))
    (k : Nat) : mpd_client :=
  mpd_client_add_task (mpd_client_send_commandv (mpd_client_idle c0 mask) cmd)
    (some (.user k))

/-- C7: sending a command while idling sends `noidle` first and clears
the idling flag, but keeps the enqueued idle task at the head of the
queue, with the new command's task right behind it; dispatching the two
responses then completes exactly two tasks, the idle task first and the
new command's task second — never zero and never reversed. -/
theorem mpd_idle_interrupt_two_completions (c0 : mpd_client) (mask : Nat)
    (cmd : List (List Char)) (k : Nat) (r1 r2 : mpd_response)
    (h1 : c0.tasks = []) (h2 : c0.idling = false) :
    (mpd_idle_then_command c0 mask cmd k).idling = false ∧
    (mpd_idle_then_command c0 mask cmd k).tasks =
      [some .idleReturn, some (.user k)] ∧
    (mpd_idle_then_command c0 mask cmd k).write_buffer =
      (mpd_client_idle c0 mask).write_buffer ++ "noidle\n".toList ++
        mpd_serialize_args cmd [] ++ ['\n'] ∧
    completedCbs
      ((mpd_client_dispatch (mpd_idle_then_command c0 mask cmd k) r1).2 ++
       (mpd_client_dispatch
          (mpd_client_dispatch (mpd_idle_then_command c0 mask cmd k) r1).1 r2).2) =
      [.idleReturn, .user k] ∧
    (mpd_client_dispatch
        (mpd_client_dispatch (mpd_idle_then_command c0 mask cmd k) r1).1 r2).1.tasks =
      [] := by
  have hidle : mpd_client_idle c0 mask =
      { mpd_client_write_command c0 (mpd_idle_args mask) with
        timer_active := true, tasks := c0.tasks ++ [some .idleReturn],
        idling := true, idling_subsystems := mask } := by
    simp [mpd_client_idle, mpd_client_send_commandv, h2, mpd_client_add_task,
      mpd_client_write_command]
  have hcmd : mpd_idle_then_command c0 mask cmd k =
      { mpd_client_write_command c0 (mpd_idle_args mask) with
        timer_active := false, idling := false, idling_subsystems := 0,
        write_buffer := (mpd_client_write_command c0 (mpd_idle_args mask)).write_buffer
          ++ "noidle\n".toList ++ mpd_serialize_args cmd [] ++ ['\n'],
        tasks := c0.tasks ++ [some .idleReturn] ++ [some (.user k)] } := by
    have hnoidle : mpd_serialize_args [['n', 'o', 'i', 'd', 'l', 'e']] [] =
        ['n', 'o', 'i', 'd', 'l', 'e'] := by decide
    simp [mpd_idle_then_command, hidle, mpd_client_send_commandv,
      mpd_client_write_command, mpd_client_add_task, List.append_assoc, hnoidle]
  rw [hcmd]
  simp [mpd_client_dispatch, h1, hidle, completedCbs, mpd_client_write_command]

/-- A freshly connected, quiet client, for concrete scenarios. -/
def mpd_client_demo_connected : mpd_client :=
  { mpd_client_init with state := .connected, socket := some 4, got_hello := true }

/-- Witness for the idle-interrupt theorem at a concrete scenario. -/
theorem mpd_idle_interrupt_two_completions_witness :
    (mpd_idle_then_command mpd_client_demo_connected 4 ["status".toList] 9).idling =
      false ∧
    (mpd_idle_then_command mpd_client_demo_connected 4 ["status".toList] 9).tasks =
      [some .idleReturn, some (.user 9)] ∧
    (mpd_idle_then_command mpd_client_demo_connected 4 ["status".toList] 9).write_buffer =
      (mpd_client_idle mpd_client_demo_connected 4).write_buffer ++ "noidle\n".toList ++
        mpd_serialize_args ["status".toList] [] ++ ['\n'] ∧
    completedCbs
      ((mpd_client_dispatch
          (mpd_idle_then_command mpd_client_demo_connected 4 ["status".toList] 9)
          mpd_response_ok).2 ++
       (mpd_client_dispatch
          (mpd_client_dispatch
            (mpd_idle_then_command mpd_client_demo_connected 4 ["status".toList] 9)
            mpd_response_ok).1 mpd_response_ok).2) =
      [.idleReturn, .user 9] ∧
    (mpd_client_dispatch
        (mpd_client_dispatch
          (mpd_idle_then_command mpd_client_demo_connected 4 ["status".toList] 9)
          mpd_response_ok).1 mpd_response_ok).1.tasks = [] :=
  mpd_idle_interrupt_two_completions mpd_client_demo_connected 4 ["status".toList] 9
    mpd_response_ok mpd_response_ok rfl rfl

-- --- Claim C9 ----------------------------------------------------------------

/-- An idling client watching subsystem mask 3, for concrete scenarios. -/
def mpd_client_demo_idling : mpd_client :=
  { mpd_client_init with
    state := .connected, socket := some 4, got_hello := true,
    idling := true, idling_subsystems := 3, timer_active := true,
    tasks := [some .idleReturn] }

/-- C9, counterexample: when the watchdog fires, the timeout handler
itself re-sends the idle command and re-flags idling — BEFORE any reply
to the ping has arrived.  Immediately after `mpd_client_on_timeout` the
client is already idling again and the output buffer already ends in the
serialized idle command (`noidle`, `ping`, `idle …` pipelined in one
burst); the ping's own task is anonymous (no callback), so nothing is
restored "on the ping's reply", contrary to the claim. -/
theorem mpd_timeout_restores_idle_immediately :
    (mpd_client_on_timeout mpd_client_demo_idling).idling = true ∧
    (mpd_client_on_timeout mpd_client_demo_idling).idling_subsystems = 3 ∧
    (mpd_client_on_timeout mpd_client_demo_idling).write_buffer =
      "noidle\nping\nidle database update\n".toList ∧
    (mpd_client_on_timeout mpd_client_demo_idling).tasks =
      [some .idleReturn, none, some .idleReturn] := by
  decide

/-- C9, amended: when the watchdog fires while idling, the client sends
`ping` (breaking the idle by the normal interrupt procedure: `noidle`
first, idling flag cleared) with an anonymous task for the ping's reply,
and then IMMEDIATELY — still inside the timeout handler, without waiting
for the ping's reply — re-issues the idle for the captured original mask
and re-arms the timer, so the original subject set is restored even if
the owner would have preferred a different mask. -/
theorem mpd_watchdog_ping_restores_original_mask (c : mpd_client)
    (h : c.idling = true) :
    (mpd_client_on_timeout c).idling = true ∧
    (mpd_client_on_timeout c).idling_subsystems = c.idling_subsystems ∧
    (mpd_client_on_timeout c).tasks = c.tasks ++ [none, some .idleReturn] ∧
    (mpd_client_on_timeout c).write_buffer =
      c.write_buffer ++ "noidle\n".toList ++ "ping\n".toList ++
        mpd_serialize_args (mpd_idle_args c.idling_subsystems) [] ++ ['\n'] ∧
    (mpd_client_on_timeout c).timer_active = true := by
  have hnoidle : mpd_serialize_args [['n', 'o', 'i', 'd', 'l', 'e']] [] =
      ['n', 'o', 'i', 'd', 'l', 'e'] := by decide
  have hping : mpd_serialize_args [['p', 'i', 'n', 'g']] [] =
      ['p', 'i', 'n', 'g'] := by decide
  simp [mpd_client_on_timeout, mpd_client_idle, mpd_client_send_commandv,
    mpd_client_write_command, mpd_client_add_task, h, hnoidle, hping,
    List.append_assoc]

/-- Witness for the watchdog theorem at a concrete idling client. -/
theorem mpd_watchdog_ping_restores_original_mask_witness :
    (mpd_client_on_timeout mpd_client_demo_idling).idling = true ∧
    (mpd_client_on_timeout mpd_client_demo_idling).idling_subsystems =
      mpd_client_demo_idling.idling_subsystems ∧
    (mpd_client_on_timeout mpd_client_demo_idling).tasks =
      mpd_client_demo_idling.tasks ++ [none, some .idleReturn] ∧
    (mpd_client_on_timeout mpd_client_demo_idling).write_buffer =
      mpd_client_demo_idling.write_buffer ++ "noidle\n".toList ++ "ping\n".toList ++
        mpd_serialize_args (mpd_idle_args mpd_client_demo_idling.idling_subsystems) []
          ++ ['\n'] ∧
    (mpd_client_on_timeout mpd_client_demo_idling).timer_active = true :=
  mpd_watchdog_ping_restores_original_mask mpd_client_demo_idling rfl

-- --- Claim C8 ----------------------------------------------------------------

/-- A connected NUT client with one pending task, for concrete scenarios. -/
def nut_client_demo : nut_client :=
  { nut_client_init with
    state := .connected, socket := some 3, tasks := [some 7] }

/-- C8: a structurally invalid byte is a hard error that fails the whole
connection.  `nut_parser_push` reports an error EXACTLY for an unescaped
quote inside an unquoted field or a non-whitespace byte right after a
closing quote; the processing loop stops at that byte immediately (no
event is delivered for it, the rest of the input is not consumed); and
whenever processing fails, `nut_client_on_ready` performs the full reset
and appends the single `onFailure` event after whatever events earlier
complete lines produced — the error is never delivered to a task. -/
theorem nut_parse_error_fails_connection :
    (∀ (p : NutParser) (c : Char),
      (nut_parser_push p c).2 = .error ↔
        (p.state = .unquoted ∧ c = '"') ∨
        (p.state = .quotedEnd ∧ isspace_ascii c = false)) ∧
    (∀ (c : nut_client) (b : Char) (rest : List Char),
      (nut_parser_push c.parser b).2 = .error →
      nut_client_process_loop c (b :: rest) =
        ({ c with parser := (nut_parser_push c.parser b).1 }, [], false)) ∧
    (∀ (c : nut_client) (input : List Char) (read_ok write_ok : Bool),
      (nut_client_process_input
          { c with read_buffer := c.read_buffer ++ input }).2.2 = false →
      nut_client_on_ready c input read_ok write_ok =
        (nut_client_reset
            (nut_client_process_input
              { c with read_buffer := c.read_buffer ++ input }).1,
         (nut_client_process_input
              { c with read_buffer := c.read_buffer ++ input }).2.1 ++
           [NutEvent.onFailure])) := by
  refine ⟨?_, ?_, ?_⟩
  · intro p c
    rcases p with ⟨st, cur, F⟩
    cases st <;>
      simp only [nut_parser_push, nut_parser_push_between, nut_parser_end_field] <;>
      (try split_ifs) <;>
      simp_all
  · intro c b rest h
    rcases hp : nut_parser_push c.parser b with ⟨p', r⟩
    rw [hp] at h
    simp only at h
    subst h
    simp [nut_client_process_loop, hp]
  · intro c input rok wok h
    simp [nut_client_on_ready, nut_client_fail, h]

/-- Witness: a concrete invalid stream (`x"` — an unescaped quote inside
an unquoted field) fails the demo connection. -/
theorem nut_parse_error_fails_connection_witness :
    nut_client_on_ready nut_client_demo "x\"".toList true true =
      (nut_client_reset
          (nut_client_process_input
            { nut_client_demo with
              read_buffer := nut_client_demo.read_buffer ++ "x\"".toList }).1,
       (nut_client_process_input
            { nut_client_demo with
              read_buffer := nut_client_demo.read_buffer ++ "x\"".toList }).2.1 ++
         [NutEvent.onFailure]) :=
  nut_parse_error_fails_connection.2.2 nut_client_demo "x\"".toList true true (by decide)

-- --- Claim C10 ---------------------------------------------------------------

/-- A connected NUT client with a pending task and a buffered partial
line, for concrete scenarios. -/
def nut_client_demo_eof : nut_client :=
  { nut_client_init with
    state := .connected, socket := some 3, read_buffer := "VA".toList,
    tasks := [some 7] }

/-- C10: when the socket read ends in EOF or error, every complete line
already buffered — including bytes delivered together with the close —
is still parsed and dispatched before the reset: the result of
`nut_client_on_ready` with a failed read is exactly the events of
processing the whole accumulated buffer, followed by the single
`onFailure`, on the fully reset client.  Concretely, a client holding
`"VA"` that receives `"R x\n"` together with the EOF still completes its
pending task with the `VAR x` line before `onFailure`. -/
theorem nut_eof_flushes_buffered_lines :
    (∀ (c : nut_client) (input : List Char) (write_ok : Bool),
      nut_client_on_ready c input false write_ok =
        (nut_client_reset
            (nut_client_process_input
              { c with read_buffer := c.read_buffer ++ input }).1,
         (nut_client_process_input
              { c with read_buffer := c.read_buffer ++ input }).2.1 ++
           [NutEvent.onFailure]) ∧
      (nut_client_on_ready c input false write_ok).1.state = .disconnected ∧
      (nut_client_on_ready c input false write_ok).1.tasks = []) ∧
    nut_client_on_ready nut_client_demo_eof "R x\n".toList false true =
      (⟨.disconnected, none, [], [],
        ⟨.startLine, [], ["VAR".toList, "x".toList]⟩, [], false, []⟩,
       [NutEvent.taskCompleted 7
          ⟨[["VAR".toList, "x".toList]], true, none⟩,
        NutEvent.onFailure]) := by
  refine ⟨?_, ?_⟩
  · intro c input wok
    refine ⟨?_, ?_, ?_⟩ <;>
      simp [nut_client_on_ready, nut_client_fail, nut_client_reset]
  · decide
